import Mathlib

/-!
# sqlizer: type inference and code synthesis

A shallow embedding of `main.go`.  Go strings are modelled as Lean strings
(sequences of code points).  Every pattern the program searches for
(`"@"`, `".sql"`, `"varchar"`, `"int"`) is ASCII, so on UTF-8 text a match at
byte level is a match at code-point level and conversely.

The database session (`*sqlx.Conn`) is modelled by the two answers it gives:
the rows of `sp_describe_undeclared_parameters` and of
`sys.dm_exec_describe_first_result_set`, or an error.
-/

namespace Sqlizer

/-! ## The Go library functions used by the program -/

/-- Go `strings.Contains` on character lists: `substr` starts at some
position of the list. -/
def containsChars (substr : List Char) : List Char → Bool
  | [] => substr.isPrefixOf []
  | c :: cs => substr.isPrefixOf (c :: cs) || containsChars substr cs

/-- Go `strings.Contains(s, substr)`. -/
def Contains (s substr : String) : Bool :=
  containsChars substr.data s.data

/-- Go `strings.ReplaceAll` for a non-empty `old`, on character lists: scan
left to right; at a match emit `new` and skip the rest of the match
(`skip` counts the characters of the current match still to drop). -/
def replaceChars (old new : List Char) : Nat → List Char → List Char
  | _, [] => []
  | skip + 1, _ :: cs => replaceChars old new skip cs
  | 0, c :: cs =>
    if old.isPrefixOf (c :: cs) then new ++ replaceChars old new (old.length - 1) cs
    else c :: replaceChars old new 0 cs

/-- Go `strings.ReplaceAll(s, old, new)`.  For an empty `old` Go inserts `new`
before every code point and at the end. -/
def ReplaceAll (s old new : String) : String :=
  if old.data.isEmpty then ⟨new.data ++ s.data.flatMap (fun c => c :: new.data)⟩
  else ⟨replaceChars old.data new.data 0 s.data⟩

/-- Go `strings.Join(elems, sep)`. -/
def Join : List String → String → String
  | [], _ => ""
  | [a], _ => a
  | a :: b :: rest, sep => a ++ sep ++ Join (b :: rest) sep

/-! ## Data model (`main.go` lines 20-40) -/

/-- Go `Parameter`. -/
structure Parameter where
  Name : String
  TypeName : String
  deriving DecidableEq, Repr

/-- Go `ResultColumn`. -/
structure ResultColumn where
  Name : String
  TypeName : String
  deriving DecidableEq, Repr

/-- Go `File`. -/
structure File where
  Name : String
  Content : String
  Parameters : List Parameter
  ResultColumns : List ResultColumn
  ParameterString : String
  ParameterNamedString : String
  ResultTypesString : String
  ResultScanString : String
  deriving DecidableEq, Repr

/-- The database session: the rows the engine reports for the undeclared
parameters of a query and for the columns of its first result set, or the
error of the call (a failed query or a failed `StructScan`). -/
structure Conn where
  describeUndeclaredParameters : String → Except String (List Parameter)
  describeFirstResultSet : String → Except String (List ResultColumn)

/-! ## `getParameters` and `getResultColumns` -/

/-- The if/else chain of `getParameters` (lines 170-176). -/
def parameterTypeName (typeName : String) : String :=
  if Contains typeName "varchar" then "string"
  else if Contains typeName "int" then "int"
  else "any"

/-- The if/else chain of `getResultColumns` (lines 198-206). -/
def resultColumnTypeName (typeName : String) : String :=
  if typeName = "varchar" then "string"
  else if typeName = "int" then "int"
  else if typeName = "bit" then "bool"
  else "any"

/-- The loop body of `getParameters` for one scanned row (lines 168-178). -/
def scanParameter (parameter : Parameter) : Parameter :=
  { Name := ReplaceAll parameter.Name "@" "",
    TypeName := parameterTypeName parameter.TypeName }

/-- The loop body of `getResultColumns` for one scanned row (lines 198-208). -/
def scanResultColumn (resultColumn : ResultColumn) : ResultColumn :=
  { Name := resultColumn.Name,
    TypeName := resultColumnTypeName resultColumn.TypeName }

/-- Go `getParameters`. -/
def getParameters (conn : Conn) (query : String) : Except String (List Parameter) :=
  match conn.describeUndeclaredParameters query with
  | .error err => .error err
  | .ok rows => .ok (rows.map scanParameter)

/-- Go `getResultColumns`. -/
def getResultColumns (conn : Conn) (query : String) : Except String (List ResultColumn) :=
  match conn.describeFirstResultSet query with
  | .error err => .error err
  | .ok rows => .ok (rows.map scanResultColumn)

/-! ## The per-file synthesis of `main` (lines 89-131) -/

/-- One entry of `parameterString` (line 103): `fmt.Sprintf("%s %s", ...)`. -/
def parameterEntry (parameter : Parameter) : String :=
  ReplaceAll parameter.Name "@" "" ++ " " ++ parameter.TypeName

/-- One entry of `parameterNamedString` (line 104). -/
def parameterNamedEntry (parameter : Parameter) : String :=
  "sql.Named(\"" ++ ReplaceAll parameter.Name "@" "" ++ "\", "
    ++ ReplaceAll parameter.Name "@" "" ++ ")"

/-- One entry of `resultTypes` (line 116). -/
def resultTypeEntry (resultColumn : ResultColumn) : String :=
  resultColumn.TypeName

/-- One entry of `resultScans` (line 117): `fmt.Sprintf("&%s", ...)`. -/
def resultScanEntry (resultColumn : ResultColumn) : String :=
  "&" ++ resultColumn.Name

/-- The `File` literal appended to `list` (lines 121-130), from the file name,
its content and the two descriptor lists. -/
def buildFile (fileName content : String) (parameters : List Parameter)
    (resultColumns : List ResultColumn) : File :=
  { Name := ReplaceAll fileName ".sql" "",
    Content := content,
    Parameters := parameters,
    ResultColumns := resultColumns,
    ParameterString := Join (parameters.map parameterEntry) ", ",
    ParameterNamedString := Join (parameters.map parameterNamedEntry) ", ",
    ResultTypesString := Join (resultColumns.map resultTypeEntry) ", ",
    ResultScanString := Join (resultColumns.map resultScanEntry) ", " }

/-- One iteration of the loop of `main` (lines 96-130): both introspection
calls, parameters first; the first error ends the run. -/
def processFile (conn : Conn) (fileName content : String) : Except String File :=
  match getParameters conn content with
  | .error err => .error err
  | .ok parameters =>
    match getResultColumns conn content with
    | .error err => .error err
    | .ok resultColumns => .ok (buildFile fileName content parameters resultColumns)

/-- The loop of `main` over the directory entries, given as
(file name, content) pairs in listing order. -/
def processFiles (conn : Conn) : List (String × String) → Except String (List File)
  | [] => .ok []
  | file :: files =>
    match processFile conn file.1 file.2 with
    | .error err => .error err
    | .ok unit =>
      match processFiles conn files with
      | .error err => .error err
      | .ok list => .ok (unit :: list)

/-! ## `packageTemplate` (lines 214-255)

The template is rendered as `text/template` does: an action `{{- ...}}` trims
the white space that ends the text before it, and nothing is escaped. -/

/-- The text before `range .Files`, with the rendered time stamp. -/
def templateHeader (timestamp : String) : String :=
  "// Code generated by go generate; DO NOT EDIT.\n" ++
  "// This file was generated by robots at\n" ++
  "// " ++ timestamp ++ "\n" ++
  "package database\n\n" ++
  "import (\n\t\"context\"\n\t\"database/sql\"\n\t\"fmt\"\n\n\t_ \"embed\"\n\n" ++
  "\t// \"github.com/jmoiron/sqlx\"\n)"

/-- The body of `range .ResultColumns` (line 244). -/
def templateLocal (resultColumn : ResultColumn) : String :=
  "\n\tvar " ++ resultColumn.Name ++ " " ++ resultColumn.TypeName

/-- Line 234 of the template: the header of the generated function. -/
def templateFuncHeader (file : File) : String :=
  "func " ++ file.Name ++ "(" ++ file.ParameterString ++ ") ("
    ++ file.ResultTypesString ++ ", error) \x7b"

/-- Line 247 of the template: the query call and its `Scan`. -/
def templateQueryCall (file : File) : String :=
  "\terr = conn.QueryRowxContext(ctx, " ++ file.Name ++ "QueryAuto, "
    ++ file.ParameterNamedString ++ ").Scan(" ++ file.ResultScanString ++ ")"

/-- The body of `range .Files` (lines 229-254) for one unit. -/
def templateFile (file : File) : String :=
  "\n\n//go:embed sql/" ++ file.Name ++ ".sql\n" ++
  "var " ++ file.Name ++ "QueryAuto string\n\n" ++
  templateFuncHeader file ++ "\n" ++
  "\tctx := context.Background()\n" ++
  "\tconn, err := pool.Connx(ctx)\n" ++
  "\tif err != nil \x7b\n" ++
  "\t\treturn false, fmt.Errorf(\"failed to open connection, error: %v\", err)\n" ++
  "\t\x7d\n\n" ++
  "\tdefer conn.Close()\n\n\t" ++
  String.join (file.ResultColumns.map templateLocal) ++ "\n\n" ++
  templateQueryCall file ++ "\n" ++
  "\tif err != nil \x7b\n" ++
  "\t\treturn false, fmt.Errorf(\"failed to scan row, error: %v\", err)\n" ++
  "\t\x7d\n\n" ++
  "\treturn true, nil\n\x7d"

/-- Go `packageTemplate.Execute` on `{Timestamp, Files}`: the text written to
`output.go`.  Every field the template reads exists and is a string, so the
execution itself has no error case. -/
def packageTemplate (timestamp : String) (files : List File) : String :=
  templateHeader timestamp ++ String.join (files.map templateFile) ++ "\n"

/-- The generation run of `main`: the loop over the files, then the template. -/
def generate (conn : Conn) (timestamp : String) (files : List (String × String)) :
    Except String String :=
  match processFiles conn files with
  | .error err => .error err
  | .ok list => .ok (packageTemplate timestamp list)

/-! ## Identifier validity and the sample sessions used below -/

/-- White space, or ASCII punctuation other than the underscore: the
characters a Go identifier cannot hold. -/
def isSpaceOrPunctuation (c : Char) : Bool :=
  c.isWhitespace
    || (33 ≤ c.toNat && c.toNat ≤ 47)
    || (58 ≤ c.toNat && c.toNat ≤ 64)
    || (91 ≤ c.toNat && c.toNat ≤ 96 && c != '_')
    || (123 ≤ c.toNat && c.toNat ≤ 126)

/-- The property asked of a unit identifier: it is non-empty and holds no
space and no punctuation. -/
def validIdentifier (s : String) : Bool :=
  !s.data.isEmpty && s.data.all (fun c => !isSpaceOrPunctuation c)

/-- A session that reports one parameter `@id : int` and the result columns
`UserId : int`, `Name : varchar` for every query. -/
def getUserConn : Conn :=
  { describeUndeclaredParameters := fun _ => .ok [⟨"@id", "int"⟩],
    describeFirstResultSet := fun _ => .ok [⟨"UserId", "int"⟩, ⟨"Name", "varchar"⟩] }

/-- A session that reports no parameter and no result column (the answer for
a statement such as an `UPDATE`). -/
def noColumnConn : Conn :=
  { describeUndeclaredParameters := fun _ => .ok [],
    describeFirstResultSet := fun _ => .ok [] }

/-- A session that reports the parameter `@id` twice and the column `Name`
twice. -/
def duplicateConn : Conn :=
  { describeUndeclaredParameters := fun _ => .ok [⟨"@id", "int"⟩, ⟨"@id", "int"⟩],
    describeFirstResultSet := fun _ => .ok [⟨"Name", "varchar"⟩, ⟨"Name", "varchar"⟩] }

/-! ## Lemmas on the library functions -/

theorem containsChars_iff (substr l : List Char) :
    containsChars substr l = true ↔ substr <:+: l := by
  induction l with
  | nil =>
    simp [containsChars, List.infix_nil]
  | cons c cs ih =>
    simp only [containsChars, Bool.or_eq_true, ih, List.infix_cons_iff]
    simp

theorem Contains_iff (s substr : String) :
    Contains s substr = true ↔ substr.data <:+: s.data :=
  containsChars_iff substr.data s.data

theorem replaceChars_at (l : List Char) :
    replaceChars ['@'] [] 0 l = l.filter (fun c => c != '@') := by
  induction l with
  | nil => rfl
  | cons c cs ih =>
    by_cases h : c = '@'
    · subst h
      simp [replaceChars, ih]
    · have h2 : ¬ ('@' = c) := fun e => h e.symm
      simp [replaceChars, ih, h, h2]

theorem ReplaceAll_at_data (s : String) :
    (ReplaceAll s "@" "").data = s.data.filter (fun c => c != '@') := by
  have h : ("@" : String).data = ['@'] := rfl
  have h0 : ("" : String).data = [] := rfl
  simp [ReplaceAll, h, h0, replaceChars_at]

theorem ReplaceAll_at_idem (s : String) :
    ReplaceAll (ReplaceAll s "@" "") "@" "" = ReplaceAll s "@" "" := by
  apply String.ext
  rw [ReplaceAll_at_data, ReplaceAll_at_data, List.filter_filter]
  simp

theorem ReplaceAll_at_leading (s : String) :
    ReplaceAll ("@" ++ s) "@" "" = ReplaceAll s "@" "" := by
  have h : ("@" : String).data = ['@'] := rfl
  apply String.ext
  rw [ReplaceAll_at_data, ReplaceAll_at_data, String.data_append, h]
  simp

theorem ReplaceAll_at_of_not_mem (s : String) (h : '@' ∉ s.data) :
    ReplaceAll s "@" "" = s := by
  apply String.ext
  rw [ReplaceAll_at_data, List.filter_eq_self]
  intro c hc
  have : c ≠ '@' := fun e => h (e ▸ hc)
  simpa using this

theorem replaceChars_of_not_contains (old new l : List Char)
    (h : containsChars old l = false) : replaceChars old new 0 l = l := by
  induction l with
  | nil => rfl
  | cons c cs ih =>
    simp only [containsChars, Bool.or_eq_false_iff] at h
    simp [replaceChars, h.1, ih h.2]

theorem replaceChars_zero_cons (old new : List Char) (c : Char) (cs : List Char) :
    replaceChars old new 0 (c :: cs)
      = if old.isPrefixOf (c :: cs) then new ++ replaceChars old new (old.length - 1) cs
        else c :: replaceChars old new 0 cs := by
  simp only [replaceChars]

theorem sql_isPrefixOf_append (l : List Char) :
    ['.', 's', 'q', 'l'].isPrefixOf (l ++ ['.', 's', 'q', 'l'])
      = (['.', 's', 'q', 'l'].isPrefixOf l || l.isEmpty) := by
  match l with
  | [] => rfl
  | [a] => simp [List.isPrefixOf]
  | [a, b] => simp [List.isPrefixOf]
  | [a, b, c] => simp [List.isPrefixOf]
  | a :: b :: c :: d :: rest => simp [List.isPrefixOf]

theorem sql_length_of_isPrefixOf (l : List Char)
    (h : ['.', 's', 'q', 'l'].isPrefixOf l = true) : 4 ≤ l.length := by
  match l, h with
  | [], h => simp [List.isPrefixOf] at h
  | [a], h => simp [List.isPrefixOf] at h
  | [a, b], h => simp [List.isPrefixOf] at h
  | [a, b, c], h => simp [List.isPrefixOf] at h
  | a :: b :: c :: d :: rest, _ => simp

theorem replaceChars_append_sql (new : List Char) (l : List Char) :
    ∀ skip : Nat, skip ≤ l.length →
      replaceChars ['.', 's', 'q', 'l'] new skip (l ++ ['.', 's', 'q', 'l'])
        = replaceChars ['.', 's', 'q', 'l'] new skip l ++ new := by
  induction l with
  | nil =>
    intro skip h
    have : skip = 0 := by simpa using h
    subst this
    simp [replaceChars]
  | cons c cs ih =>
    intro skip h
    cases skip with
    | succ k =>
      have hk : k ≤ cs.length := by simpa using h
      simpa [replaceChars] using ih k hk
    | zero =>
      have hp := sql_isPrefixOf_append (c :: cs)
      simp only [List.cons_append, List.isEmpty_cons, Bool.or_false] at hp
      rw [List.cons_append, replaceChars_zero_cons, replaceChars_zero_cons, hp]
      by_cases hm : ['.', 's', 'q', 'l'].isPrefixOf (c :: cs) = true
      · have hl := sql_length_of_isPrefixOf (c :: cs) hm
        have hk : 3 ≤ cs.length := by simpa using hl
        rw [if_pos hm, if_pos hm]
        have h3 : (['.', 's', 'q', 'l'] : List Char).length - 1 = 3 := rfl
        rw [h3, ih 3 hk, List.append_assoc]
      · rw [if_neg hm, if_neg hm, ih 0 (Nat.zero_le _), List.cons_append]

theorem intercalate_go_eq_Join (sep : String) (l : List String) :
    ∀ acc a : String, String.intercalate.go (acc ++ a) sep l = acc ++ Join (a :: l) sep := by
  induction l with
  | nil =>
    intro acc a
    simp [String.intercalate.go, Join]
  | cons b rest ih =>
    intro acc a
    have h : acc ++ a ++ sep ++ b = (acc ++ a ++ sep) ++ b := rfl
    rw [String.intercalate.go, h, ih (acc ++ a ++ sep) b]
    simp [Join, String.append_assoc]

theorem Join_eq_intercalate (elems : List String) (sep : String) :
    Join elems sep = sep.intercalate elems := by
  cases elems with
  | nil => rfl
  | cons a rest =>
    have h := intercalate_go_eq_Join sep rest "" a
    simp only [String.empty_append] at h
    rw [String.intercalate, h]

theorem parameterEntry_scan (p : Parameter) :
    parameterEntry (scanParameter p)
      = (scanParameter p).Name ++ " " ++ (scanParameter p).TypeName := by
  simp [parameterEntry, scanParameter, ReplaceAll_at_idem]

theorem parameterNamedEntry_scan (p : Parameter) :
    parameterNamedEntry (scanParameter p)
      = "sql.Named(\"" ++ (scanParameter p).Name ++ "\", " ++ (scanParameter p).Name ++ ")" := by
  simp [parameterNamedEntry, scanParameter, ReplaceAll_at_idem]

/-! ## The claims -/

/-- C1: the parameter type chain of `getParameters` maps a type name to
`string` when it contains `varchar`, otherwise to `int` when it contains `int`,
otherwise to `any`; the result is one of the three, a name with both
substrings maps to `string`, the match is case-sensitive and `bit` maps to
`any`. -/
theorem parameter_type_mapping (name t : String) :
    (scanParameter ⟨name, t⟩).TypeName
        = (if "varchar".data <:+: t.data then "string"
           else if "int".data <:+: t.data then "int" else "any")
      ∧ ((scanParameter ⟨name, t⟩).TypeName = "string"
          ∨ (scanParameter ⟨name, t⟩).TypeName = "int"
          ∨ (scanParameter ⟨name, t⟩).TypeName = "any")
      ∧ (scanParameter ⟨name, "varchar(int)"⟩).TypeName = "string"
      ∧ (scanParameter ⟨name, "VARCHAR"⟩).TypeName = "any"
      ∧ (scanParameter ⟨name, "INT"⟩).TypeName = "any"
      ∧ (scanParameter ⟨name, "bit"⟩).TypeName = "any" := by
  refine ⟨?_, ?_, ?_, ?_, ?_, ?_⟩
  · show parameterTypeName t = _
    unfold parameterTypeName
    by_cases hv : "varchar".data <:+: t.data
    · rw [if_pos hv, if_pos ((Contains_iff t "varchar").mpr hv)]
    · have hv2 : ¬ Contains t "varchar" = true := fun h => hv ((Contains_iff t "varchar").mp h)
      rw [if_neg hv, if_neg hv2]
      by_cases hi : "int".data <:+: t.data
      · rw [if_pos hi, if_pos ((Contains_iff t "int").mpr hi)]
      · have hi2 : ¬ Contains t "int" = true := fun h => hi ((Contains_iff t "int").mp h)
        rw [if_neg hi, if_neg hi2]
  · show parameterTypeName t = _ ∨ parameterTypeName t = _ ∨ parameterTypeName t = _
    unfold parameterTypeName
    split
    · exact Or.inl rfl
    · split
      · exact Or.inr (Or.inl rfl)
      · exact Or.inr (Or.inr rfl)
  · show parameterTypeName "varchar(int)" = "string"
    decide
  · show parameterTypeName "VARCHAR" = "any"
    decide
  · show parameterTypeName "INT" = "any"
    decide
  · show parameterTypeName "bit" = "any"
    decide

/-- C2, the code at the failing inputs: `getResultColumns` compares the whole
type name, so `nvarchar(50)` and `bigint`, which contain `varchar` and `int`,
are mapped to `any`, while the parameter chain maps them to `string` and
`int`. -/
theorem result_type_whole_name_only :
    Contains "nvarchar(50)" "varchar" = true
      ∧ (scanResultColumn ⟨"Name", "nvarchar(50)"⟩).TypeName = "any"
      ∧ (scanParameter ⟨"@name", "nvarchar(50)"⟩).TypeName = "string"
      ∧ Contains "bigint" "int" = true
      ∧ (scanResultColumn ⟨"Total", "bigint"⟩).TypeName = "any"
      ∧ (scanParameter ⟨"@total", "bigint"⟩).TypeName = "int" := by
  decide

/-- C10 as stated fails: a later `@` is removed as well, `@user@id` becomes
`userid` and not `user@id`, and `user@id` is not left unchanged. -/
theorem sigil_later_at_removed :
    (scanParameter ⟨"@user@id", "int"⟩).Name = "userid"
      ∧ (scanParameter ⟨"@user@id", "int"⟩).Name ≠ "user@id"
      ∧ (scanParameter ⟨"user@id", "int"⟩).Name ≠ "user@id" := by
  decide

/-- C10, amended: for a reported name with no `@` after its first character
the descriptor name is the name without its leading sigil: the name of
`"@" ++ r` is `r`, a name `r` without `@` is unchanged, and the
formal-parameter and named-binding entries of `main` use that same name. -/
theorem sigil_stripping (r t : String) (h : '@' ∉ r.data) :
    (scanParameter ⟨"@" ++ r, t⟩).Name = r
      ∧ (scanParameter ⟨r, t⟩).Name = r
      ∧ parameterEntry (scanParameter ⟨"@" ++ r, t⟩)
          = r ++ " " ++ (scanParameter ⟨"@" ++ r, t⟩).TypeName
      ∧ parameterNamedEntry (scanParameter ⟨"@" ++ r, t⟩)
          = "sql.Named(\"" ++ r ++ "\", " ++ r ++ ")" := by
  have h1 : ReplaceAll r "@" "" = r := ReplaceAll_at_of_not_mem r h
  have h2 : (scanParameter ⟨"@" ++ r, t⟩).Name = r := by
    show ReplaceAll ("@" ++ r) "@" "" = r
    rw [ReplaceAll_at_leading, h1]
  refine ⟨h2, h1, ?_, ?_⟩
  · rw [parameterEntry_scan, h2]
  · rw [parameterNamedEntry_scan, h2]

/-- C10, amended, at the name `@id`. -/
theorem sigil_stripping_witness :
    '@' ∉ "id".data
      ∧ (scanParameter ⟨"@" ++ "id", "int"⟩).Name = "id"
      ∧ parameterEntry (scanParameter ⟨"@" ++ "id", "int"⟩) = "id int"
      ∧ parameterNamedEntry (scanParameter ⟨"@" ++ "id", "int"⟩) = "sql.Named(\"id\", id)" :=
  ⟨by decide, (sigil_stripping "id" "int" (by decide)).1,
    (sigil_stripping "id" "int" (by decide)).2.2.1,
    (sigil_stripping "id" "int" (by decide)).2.2.2⟩

theorem processFile_ok (conn : Conn) (fileName content : String)
    (rp : List Parameter) (rc : List ResultColumn)
    (hp : conn.describeUndeclaredParameters content = .ok rp)
    (hc : conn.describeFirstResultSet content = .ok rc) :
    processFile conn fileName content
      = .ok (buildFile fileName content (rp.map scanParameter) (rc.map scanResultColumn)) := by
  simp [processFile, getParameters, getResultColumns, hp, hc]

theorem map_parameterEntry_scan (rp : List Parameter) :
    (rp.map scanParameter).map parameterEntry
      = (rp.map scanParameter).map (fun p => p.Name ++ " " ++ p.TypeName) := by
  simp only [List.map_map]
  apply List.map_congr_left
  intro p _
  exact parameterEntry_scan p

theorem map_parameterNamedEntry_scan (rp : List Parameter) :
    (rp.map scanParameter).map parameterNamedEntry
      = (rp.map scanParameter).map
          (fun p => "sql.Named(\"" ++ p.Name ++ "\", " ++ p.Name ++ ")") := by
  simp only [List.map_map]
  apply List.map_congr_left
  intro p _
  exact parameterNamedEntry_scan p

/-- C6: when both introspection calls answer, the unit built in `main` holds
one descriptor per reported row, in order, and each of its four strings is the
", "-join (`String.intercalate`) of a list of entries that has one entry per
descriptor, the Nth entry made from the Nth descriptor: `<name> <type>`,
`sql.Named("<name>", <name>)`, the mapped type, and `&<name>`; an empty list
gives the empty string. -/
theorem positional_synthesis (conn : Conn) (fileName content : String)
    (rp : List Parameter) (rc : List ResultColumn)
    (hp : conn.describeUndeclaredParameters content = .ok rp)
    (hc : conn.describeFirstResultSet content = .ok rc) :
    ∃ f : File, processFile conn fileName content = .ok f
      ∧ f.Parameters = rp.map scanParameter
      ∧ f.ResultColumns = rc.map scanResultColumn
      ∧ f.ParameterString
          = ", ".intercalate (f.Parameters.map (fun p => p.Name ++ " " ++ p.TypeName))
      ∧ f.ParameterNamedString
          = ", ".intercalate (f.Parameters.map
              (fun p => "sql.Named(\"" ++ p.Name ++ "\", " ++ p.Name ++ ")"))
      ∧ f.ResultTypesString = ", ".intercalate (f.ResultColumns.map (fun c => c.TypeName))
      ∧ f.ResultScanString = ", ".intercalate (f.ResultColumns.map (fun c => "&" ++ c.Name))
      ∧ (∃ formal named types scans : List String,
          f.ParameterString = ", ".intercalate formal
            ∧ f.ParameterNamedString = ", ".intercalate named
            ∧ f.ResultTypesString = ", ".intercalate types
            ∧ f.ResultScanString = ", ".intercalate scans
            ∧ formal.length = rp.length ∧ named.length = rp.length
            ∧ types.length = rc.length ∧ scans.length = rc.length
            ∧ ∀ i : Nat,
                formal[i]? = f.Parameters[i]?.map (fun p => p.Name ++ " " ++ p.TypeName)
                  ∧ named[i]? = f.Parameters[i]?.map
                      (fun p => "sql.Named(\"" ++ p.Name ++ "\", " ++ p.Name ++ ")")
                  ∧ types[i]? = f.ResultColumns[i]?.map (fun c => c.TypeName)
                  ∧ scans[i]? = f.ResultColumns[i]?.map (fun c => "&" ++ c.Name))
      ∧ (rp = [] → f.ParameterString = "" ∧ f.ParameterNamedString = "")
      ∧ (rc = [] → f.ResultTypesString = "" ∧ f.ResultScanString = "") := by
  have e1 : (buildFile fileName content (rp.map scanParameter)
        (rc.map scanResultColumn)).ParameterString
      = ", ".intercalate ((rp.map scanParameter).map (fun p => p.Name ++ " " ++ p.TypeName)) := by
    show Join ((rp.map scanParameter).map parameterEntry) ", " = _
    rw [map_parameterEntry_scan, Join_eq_intercalate]
  have e2 : (buildFile fileName content (rp.map scanParameter)
        (rc.map scanResultColumn)).ParameterNamedString
      = ", ".intercalate ((rp.map scanParameter).map
          (fun p => "sql.Named(\"" ++ p.Name ++ "\", " ++ p.Name ++ ")")) := by
    show Join ((rp.map scanParameter).map parameterNamedEntry) ", " = _
    rw [map_parameterNamedEntry_scan, Join_eq_intercalate]
  have e3 : (buildFile fileName content (rp.map scanParameter)
        (rc.map scanResultColumn)).ResultTypesString
      = ", ".intercalate ((rc.map scanResultColumn).map (fun c => c.TypeName)) := by
    show Join ((rc.map scanResultColumn).map resultTypeEntry) ", " = _
    rw [Join_eq_intercalate]
    rfl
  have e4 : (buildFile fileName content (rp.map scanParameter)
        (rc.map scanResultColumn)).ResultScanString
      = ", ".intercalate ((rc.map scanResultColumn).map (fun c => "&" ++ c.Name)) := by
    show Join ((rc.map scanResultColumn).map resultScanEntry) ", " = _
    rw [Join_eq_intercalate]
    rfl
  refine ⟨_, processFile_ok conn fileName content rp rc hp hc, rfl, rfl, e1, e2, e3, e4,
    ⟨_, _, _, _, e1, e2, e3, e4, by simp, by simp, by simp, by simp, ?_⟩, ?_, ?_⟩
  · intro i
    refine ⟨?_, ?_, ?_, ?_⟩ <;> rw [List.getElem?_map] <;> rfl
  · intro h
    subst h
    exact ⟨rfl, rfl⟩
  · intro h
    subst h
    exact ⟨rfl, rfl⟩

/-- C6 at the session of the `GetUser` example: one parameter, two columns. -/
theorem positional_synthesis_witness :
    ∃ f : File, processFile getUserConn "GetUser.sql" "SELECT 1" = .ok f
      ∧ f.ParameterString = "id int"
      ∧ f.ParameterNamedString = "sql.Named(\"id\", id)"
      ∧ f.ResultTypesString = "int, string"
      ∧ f.ResultScanString = "&UserId, &Name" := by
  obtain ⟨f, h1, h2, h3, h4, h5, h6, h7, _⟩ :=
    positional_synthesis getUserConn "GetUser.sql" "SELECT 1"
      [⟨"@id", "int"⟩] [⟨"UserId", "int"⟩, ⟨"Name", "varchar"⟩] rfl rfl
  refine ⟨f, h1, ?_, ?_, ?_, ?_⟩
  · rw [h4, h2]; decide
  · rw [h5, h2]; decide
  · rw [h6, h3]; decide
  · rw [h7, h3]; decide

theorem processFile_ok_iff (conn : Conn) (fileName content : String) :
    (∃ f, processFile conn fileName content = .ok f)
      ↔ (∃ rp, conn.describeUndeclaredParameters content = .ok rp)
          ∧ (∃ rc, conn.describeFirstResultSet content = .ok rc) := by
  constructor
  · rintro ⟨f, hf⟩
    unfold processFile getParameters getResultColumns at hf
    cases hp : conn.describeUndeclaredParameters content with
    | error e => simp [hp] at hf
    | ok rp =>
      cases hc : conn.describeFirstResultSet content with
      | error e => simp [hp, hc] at hf
      | ok rc => exact ⟨⟨rp, rfl⟩, ⟨rc, rfl⟩⟩
  · rintro ⟨⟨rp, hp⟩, ⟨rc, hc⟩⟩
    exact ⟨_, processFile_ok conn fileName content rp rc hp hc⟩

theorem processFiles_length (conn : Conn) (files : List (String × String)) :
    ∀ list, processFiles conn files = .ok list → list.length = files.length := by
  induction files with
  | nil =>
    intro list h
    simp [processFiles] at h
    simp [← h]
  | cons file rest ih =>
    intro list h
    unfold processFiles at h
    cases h1 : processFile conn file.1 file.2 with
    | error e => simp [h1] at h
    | ok unit =>
      cases h2 : processFiles conn rest with
      | error e => simp [h1, h2] at h
      | ok units =>
        simp only [h1, h2, Except.ok.injEq] at h
        simp [← h, ih units h2]

theorem processFiles_ok_iff (conn : Conn) (files : List (String × String)) :
    (∃ list, processFiles conn files = .ok list)
      ↔ ∀ file ∈ files, (∃ rp, conn.describeUndeclaredParameters file.2 = .ok rp)
          ∧ (∃ rc, conn.describeFirstResultSet file.2 = .ok rc) := by
  induction files with
  | nil => simp [processFiles]
  | cons file rest ih =>
    constructor
    · rintro ⟨list, hl⟩
      unfold processFiles at hl
      cases h1 : processFile conn file.1 file.2 with
      | error e => simp [h1] at hl
      | ok unit =>
        cases h2 : processFiles conn rest with
        | error e => simp [h1, h2] at hl
        | ok units =>
          intro g hg
          rcases List.mem_cons.mp hg with rfl | hg
          · exact (processFile_ok_iff conn g.1 g.2).mp ⟨unit, h1⟩
          · exact ih.mp ⟨units, h2⟩ g hg
    · intro h
      obtain ⟨unit, h1⟩ :=
        (processFile_ok_iff conn file.1 file.2).mpr (h file (List.mem_cons_self _ _))
      obtain ⟨units, h2⟩ := ih.mpr (fun g hg => h g (List.mem_cons_of_mem _ hg))
      exact ⟨unit :: units, by simp [processFiles, h1, h2]⟩

/-- C3, the code at the example: for `GetUser.sql` with parameter `@id : int`
and columns `UserId : int`, `Name : varchar` the rendered header is
`func GetUser(id int) (int, string, error)`, without the leading `bool`; the
query call binds `sql.Named("id", id)` and scans into `&UserId, &Name`. -/
theorem getUser_example_rendered :
    (processFile getUserConn "GetUser.sql"
        "SELECT @id AS UserId, Name FROM Users WHERE Id = @id").map
        (fun f => (templateFuncHeader f, templateQueryCall f))
      = .ok ("func GetUser(id int) (int, string, error) \x7b",
          "\terr = conn.QueryRowxContext(ctx, GetUserQueryAuto, sql.Named(\"id\", id)).Scan(&UserId, &Name)") := by
  rfl

set_option maxRecDepth 100000 in
/-- C7, the code at a unit with two result columns: the function declares the
outputs `(int, string, error)`, with no success boolean, and each of its three
`return` statements supplies two values, `false` or `true` and an error, and
none of the scanned variables. -/
theorem getUser_block_rendered :
    (processFile getUserConn "GetUser.sql"
        "SELECT @id AS UserId, Name FROM Users WHERE Id = @id").map templateFile
      = .ok "\n\n//go:embed sql/GetUser.sql\nvar GetUserQueryAuto string\n\nfunc GetUser(id int) (int, string, error) \x7b\n\tctx := context.Background()\n\tconn, err := pool.Connx(ctx)\n\tif err != nil \x7b\n\t\treturn false, fmt.Errorf(\"failed to open connection, error: %v\", err)\n\t\x7d\n\n\tdefer conn.Close()\n\n\t\n\tvar UserId int\n\tvar Name string\n\n\terr = conn.QueryRowxContext(ctx, GetUserQueryAuto, sql.Named(\"id\", id)).Scan(&UserId, &Name)\n\tif err != nil \x7b\n\t\treturn false, fmt.Errorf(\"failed to scan row, error: %v\", err)\n\t\x7d\n\n\treturn true, nil\n\x7d" := by
  rfl

set_option maxRecDepth 100000 in
/-- C4 as stated fails: a run whose only unit has no result column is not
rejected; it ends with the output text, in which the unit is rendered. -/
theorem empty_result_set_not_rejected :
    noColumnConn.describeFirstResultSet "UPDATE Users SET Seen = 1" = .ok []
      ∧ generate noColumnConn "2024-01-01 00:00:00 +0000 UTC"
            [("Touch.sql", "UPDATE Users SET Seen = 1")]
          = .ok "// Code generated by go generate; DO NOT EDIT.\n// This file was generated by robots at\n// 2024-01-01 00:00:00 +0000 UTC\npackage database\n\nimport (\n\t\"context\"\n\t\"database/sql\"\n\t\"fmt\"\n\n\t_ \"embed\"\n\n\t// \"github.com/jmoiron/sqlx\"\n)\n\n//go:embed sql/Touch.sql\nvar TouchQueryAuto string\n\nfunc Touch() (, error) \x7b\n\tctx := context.Background()\n\tconn, err := pool.Connx(ctx)\n\tif err != nil \x7b\n\t\treturn false, fmt.Errorf(\"failed to open connection, error: %v\", err)\n\t\x7d\n\n\tdefer conn.Close()\n\n\t\n\n\terr = conn.QueryRowxContext(ctx, TouchQueryAuto, ).Scan()\n\tif err != nil \x7b\n\t\treturn false, fmt.Errorf(\"failed to scan row, error: %v\", err)\n\t\x7d\n\n\treturn true, nil\n\x7d\n" := by
  exact ⟨rfl, rfl⟩

theorem processFile_unit (conn : Conn) (fileName content : String) (unit : File)
    (h : processFile conn fileName content = .ok unit) :
    ∃ rp rc, conn.describeUndeclaredParameters content = .ok rp
      ∧ conn.describeFirstResultSet content = .ok rc
      ∧ unit = buildFile fileName content (rp.map scanParameter) (rc.map scanResultColumn) := by
  unfold processFile getParameters getResultColumns at h
  cases hp : conn.describeUndeclaredParameters content with
  | error e => simp [hp] at h
  | ok rp =>
    cases hc : conn.describeFirstResultSet content with
    | error e => simp [hp, hc] at h
    | ok rc =>
      simp only [hp, hc, Except.ok.injEq] at h
      exact ⟨rp, rc, rfl, rfl, h.symm⟩

theorem processFiles_units (conn : Conn) (files : List (String × String)) :
    ∀ list, processFiles conn files = .ok list →
      List.Forall₂
        (fun file unit => ∃ rp rc, conn.describeUndeclaredParameters file.2 = .ok rp
          ∧ conn.describeFirstResultSet file.2 = .ok rc
          ∧ unit = buildFile file.1 file.2 (rp.map scanParameter) (rc.map scanResultColumn))
        files list := by
  induction files with
  | nil =>
    intro list h
    simp only [processFiles, Except.ok.injEq] at h
    subst h
    exact List.Forall₂.nil
  | cons file rest ih =>
    intro list h
    unfold processFiles at h
    cases h1 : processFile conn file.1 file.2 with
    | error e => simp [h1] at h
    | ok unit =>
      cases h2 : processFiles conn rest with
      | error e => simp [h1, h2] at h
      | ok units =>
        simp only [h1, h2, Except.ok.injEq] at h
        subst h
        exact List.Forall₂.cons (processFile_unit conn file.1 file.2 unit h1) (ih units h2)

/-- C4, amended: emission has no check on the number of result columns.  A run
ends with the output text exactly when both introspection calls answer for
every file, whatever the number of columns they report.  The text is then the
header followed by one block per input file, in the order of the files: the
Nth block renders the unit built from the Nth file name, its content and the
rows reported for it. -/
theorem generate_ok_iff (conn : Conn) (timestamp : String)
    (files : List (String × String)) :
    ((∃ text, generate conn timestamp files = .ok text)
        ↔ ∀ file ∈ files,
            (∃ rp, conn.describeUndeclaredParameters file.2 = .ok rp)
              ∧ (∃ rc, conn.describeFirstResultSet file.2 = .ok rc))
      ∧ (∀ text, generate conn timestamp files = .ok text →
          ∃ list : List File,
            list.length = files.length
            ∧ List.Forall₂
                (fun file unit => ∃ rp rc,
                  conn.describeUndeclaredParameters file.2 = .ok rp
                    ∧ conn.describeFirstResultSet file.2 = .ok rc
                    ∧ unit.Name = ReplaceAll file.1 ".sql" ""
                    ∧ unit.Content = file.2
                    ∧ unit.Parameters = rp.map scanParameter
                    ∧ unit.ResultColumns = rc.map scanResultColumn
                    ∧ unit = buildFile file.1 file.2 (rp.map scanParameter)
                        (rc.map scanResultColumn))
                files list
            ∧ text = templateHeader timestamp ++ String.join (list.map templateFile) ++ "\n") := by
  constructor
  · rw [← processFiles_ok_iff]
    constructor
    · rintro ⟨text, h⟩
      unfold generate at h
      cases h1 : processFiles conn files with
      | error e => simp [h1] at h
      | ok list => exact ⟨list, rfl⟩
    · rintro ⟨list, h⟩
      exact ⟨packageTemplate timestamp list, by simp [generate, h]⟩
  · intro text h
    unfold generate at h
    cases h1 : processFiles conn files with
    | error e => simp [h1] at h
    | ok list =>
      simp only [h1, Except.ok.injEq] at h
      refine ⟨list, processFiles_length conn files list h1, ?_, h.symm⟩
      refine (processFiles_units conn files list h1).imp ?_
      rintro file unit ⟨rp, rc, hp, hc, hu⟩
      exact ⟨rp, rc, hp, hc, by rw [hu]; rfl, by rw [hu]; rfl, by rw [hu]; rfl,
        by rw [hu]; rfl, hu⟩

/-- C4, amended, at a run of two files, the first with no result column: the
run ends with a text that renders `Touch` first and `Ping` second. -/
theorem generate_ok_iff_witness :
    (∃ text, generate noColumnConn "T"
        [("Touch.sql", "UPDATE Users SET Seen = 1"), ("Ping.sql", "UPDATE Users SET Seen = 0")]
          = .ok text)
      ∧ ∀ text, generate noColumnConn "T"
          [("Touch.sql", "UPDATE Users SET Seen = 1"), ("Ping.sql", "UPDATE Users SET Seen = 0")]
            = .ok text →
          ∃ first second : File, first.Name = "Touch" ∧ second.Name = "Ping"
            ∧ text = templateHeader "T" ++ String.join ([first, second].map templateFile)
                ++ "\n" := by
  refine ⟨(generate_ok_iff noColumnConn "T" _).1.mpr (fun _ _ => ⟨⟨[], rfl⟩, ⟨[], rfl⟩⟩), ?_⟩
  intro text h
  obtain ⟨list, _, hl, ht⟩ := (generate_ok_iff noColumnConn "T" _).2 text h
  cases hl with
  | cons h1 hrest =>
    cases hrest with
    | cons h2 hnil =>
      cases hnil
      obtain ⟨_, _, _, _, n1, _⟩ := h1
      obtain ⟨_, _, _, _, n2, _⟩ := h2
      exact ⟨_, _, n1.trans (by decide), n2.trans (by decide), ht⟩

/-- C5 as stated fails: rows that repeat the parameter `@id` and the column
`Name` are not rejected; the unit is built with `id` twice in its
formal-parameter list and `Name` twice among its scan targets. -/
theorem name_collision_not_rejected :
    (processFile duplicateConn "Dup.sql" "SELECT Name, Name FROM T WHERE Id = @id").map
        (fun f => (f.ParameterString, f.ResultScanString, f.ResultColumns.map (fun c => c.Name)))
      = .ok ("id int, id int", "&Name, &Name", ["Name", "Name"]) := by
  rfl

/-- C5, amended: generation has no name check.  Whenever both introspection
calls answer, the unit is built, its descriptor names are the reported names
in order (parameters with every `@` removed), and so a name that is repeated
among the rows is repeated among the descriptors. -/
theorem no_name_collision_check (conn : Conn) (fileName content : String)
    (rp : List Parameter) (rc : List ResultColumn)
    (hp : conn.describeUndeclaredParameters content = .ok rp)
    (hc : conn.describeFirstResultSet content = .ok rc) :
    ∃ f : File, processFile conn fileName content = .ok f
      ∧ f.Parameters.map (fun p => p.Name) = rp.map (fun p => ReplaceAll p.Name "@" "")
      ∧ f.ResultColumns.map (fun c => c.Name) = rc.map (fun c => c.Name)
      ∧ ((f.Parameters.map (fun p => p.Name)).Nodup
          ↔ (rp.map (fun p => ReplaceAll p.Name "@" "")).Nodup)
      ∧ ((f.ResultColumns.map (fun c => c.Name)).Nodup
          ↔ (rc.map (fun c => c.Name)).Nodup) := by
  have h1 : (rp.map scanParameter).map (fun p => p.Name)
      = rp.map (fun p => ReplaceAll p.Name "@" "") := by
    simp [List.map_map, Function.comp_def, scanParameter]
  have h2 : (rc.map scanResultColumn).map (fun c => c.Name) = rc.map (fun c => c.Name) := by
    simp [List.map_map, Function.comp_def, scanResultColumn]
  refine ⟨_, processFile_ok conn fileName content rp rc hp hc, h1, h2, ?_, ?_⟩
  · show ((rp.map scanParameter).map (fun p => p.Name)).Nodup ↔ _
    rw [h1]
  · show ((rc.map scanResultColumn).map (fun c => c.Name)).Nodup ↔ _
    rw [h2]

/-- C5, amended, at rows that repeat `@id` and `Name`. -/
theorem no_name_collision_check_witness :
    ∃ f : File,
      processFile duplicateConn "Dup.sql" "SELECT Name, Name FROM T WHERE Id = @id" = .ok f
        ∧ ¬ (f.Parameters.map (fun p => p.Name)).Nodup
        ∧ ¬ (f.ResultColumns.map (fun c => c.Name)).Nodup := by
  obtain ⟨f, h1, _, _, h4, h5⟩ :=
    no_name_collision_check duplicateConn "Dup.sql" "SELECT Name, Name FROM T WHERE Id = @id"
      [⟨"@id", "int"⟩, ⟨"@id", "int"⟩] [⟨"Name", "varchar"⟩, ⟨"Name", "varchar"⟩] rfl rfl
  refine ⟨f, h1, ?_, ?_⟩
  · rw [h4]; decide
  · rw [h5]; decide

theorem ReplaceAll_sql_append (s : String) :
    ReplaceAll (s ++ ".sql") ".sql" "" = ReplaceAll s ".sql" "" := by
  have h : (".sql" : String).data = ['.', 's', 'q', 'l'] := rfl
  have h0 : ("" : String).data = [] := rfl
  apply String.ext
  simp only [ReplaceAll, String.data_append, h, h0, List.isEmpty_cons, Bool.false_eq_true,
    if_false]
  rw [replaceChars_append_sql [] s.data 0 (Nat.zero_le _), List.append_nil]

theorem ReplaceAll_sql_of_not_contains (s : String) (h : Contains s ".sql" = false) :
    ReplaceAll s ".sql" "" = s := by
  have h1 : (".sql" : String).data = ['.', 's', 'q', 'l'] := rfl
  apply String.ext
  simp only [ReplaceAll, h1, List.isEmpty_cons, Bool.false_eq_true, if_false]
  exact replaceChars_of_not_contains _ _ _ h

theorem not_contains_sql_of_valid (s : String) (h : validIdentifier s = true) :
    Contains s ".sql" = false := by
  cases hc : Contains s ".sql" with
  | false => rfl
  | true =>
    exfalso
    have hin : (".sql" : String).data <:+: s.data := (Contains_iff s ".sql").mp hc
    have hdot : '.' ∈ s.data := hin.subset (by decide)
    unfold validIdentifier at h
    simp only [Bool.and_eq_true, List.all_eq_true] at h
    have := h.2 '.' hdot
    revert this
    decide

/-- C8 as stated fails: an occurrence of `.sql` inside the name is removed
too, so `export.sqlite.sql` gives `exportite` and not `export.sqlite`. -/
theorem identifier_inner_extension_removed :
    (buildFile ("export.sqlite" ++ ".sql") "SELECT 1" [] []).Name = "exportite"
      ∧ (buildFile ("export.sqlite" ++ ".sql") "SELECT 1" [] []).Name ≠ "export.sqlite" := by
  decide

/-- C8, amended: for a file name `s ++ ".sql"` in which `s` does not itself
contain `.sql`, the unit identifier is `s`: the trailing extension is removed
and the rest of the file name is kept character for character. -/
theorem identifier_derivation (s content : String) (parameters : List Parameter)
    (resultColumns : List ResultColumn) (h : Contains s ".sql" = false) :
    (buildFile (s ++ ".sql") content parameters resultColumns).Name = s := by
  show ReplaceAll (s ++ ".sql") ".sql" "" = s
  rw [ReplaceAll_sql_append, ReplaceAll_sql_of_not_contains s h]

/-- C8, amended, at the file name `GetUser.sql`. -/
theorem identifier_derivation_witness :
    Contains "GetUser" ".sql" = false
      ∧ (buildFile ("GetUser" ++ ".sql") "SELECT 1" [] []).Name = "GetUser" :=
  ⟨by decide, identifier_derivation "GetUser" "SELECT 1" [] [] (by decide)⟩

/-- C9 as stated fails: the file name is not sanitized; `get user.sql` gives
the identifier `get user`, `get-user.sql` gives `get-user`, and `.sql` gives
the empty identifier. -/
theorem identifier_not_sanitized :
    (buildFile "get user.sql" "SELECT 1" [] []).Name = "get user"
      ∧ validIdentifier (buildFile "get user.sql" "SELECT 1" [] []).Name = false
      ∧ (buildFile "get-user.sql" "SELECT 1" [] []).Name = "get-user"
      ∧ validIdentifier (buildFile "get-user.sql" "SELECT 1" [] []).Name = false
      ∧ (buildFile ".sql" "SELECT 1" [] []).Name = ""
      ∧ validIdentifier (buildFile ".sql" "SELECT 1" [] []).Name = false := by
  decide

/-- C9, amended: the file name is not sanitized, so the unit identifier is
valid when the file name allows it: for a file name `s ++ ".sql"` whose stem
`s` is non-empty and holds no space and no punctuation, the identifier is `s`
and is valid. -/
theorem identifier_valid_of_valid_stem (s content : String)
    (parameters : List Parameter) (resultColumns : List ResultColumn)
    (h : validIdentifier s = true) :
    (buildFile (s ++ ".sql") content parameters resultColumns).Name = s
      ∧ validIdentifier (buildFile (s ++ ".sql") content parameters resultColumns).Name
          = true := by
  have hn : (buildFile (s ++ ".sql") content parameters resultColumns).Name = s := by
    show ReplaceAll (s ++ ".sql") ".sql" "" = s
    rw [ReplaceAll_sql_append, ReplaceAll_sql_of_not_contains s (not_contains_sql_of_valid s h)]
  exact ⟨hn, by rw [hn]; exact h⟩

/-- C9, amended, at the file name `GetUser.sql`. -/
theorem identifier_valid_of_valid_stem_witness :
    validIdentifier "GetUser" = true
      ∧ validIdentifier (buildFile ("GetUser" ++ ".sql") "SELECT 1" [] []).Name = true :=
  ⟨by decide, (identifier_valid_of_valid_stem "GetUser" "SELECT 1" [] [] (by decide)).2⟩

end Sqlizer
